import Mathlib

/-!
Shallow embedding of the clinician leave management system (src/app/main.py):
name normalization and fuzzy matching, the eligibility/pay branch, and the
append-only leave ledger.  Machine reals (Python floats) are modelled as exact
rationals; strings are ASCII, so Python's str.lower/str.strip coincide with
the character-wise maps below.
-/

namespace LeaveSystem

/-- Python's `str.strip` whitespace set (ASCII fragment). -/
def pyIsSpace (c : Char) : Bool :=
  c = ' ' || c = '\t' || c = '\n' || c = '\r' || c = '\x0b' || c = '\x0c'

/-- Python `s.lower()` on ASCII strings: character-wise lowercasing. -/
def pyLower (s : String) : String := ⟨s.data.map Char.toLower⟩

/-- Python `s.strip()`: drop leading and trailing whitespace. -/
def pyStrip (s : String) : String :=
  ⟨((s.data.dropWhile pyIsSpace).reverse.dropWhile pyIsSpace).reverse⟩

/-- The normalization `s.lower().strip()` applied by `match_name` (main.py line 41)
and by the rate-table lookup (line 45) to both sides of every comparison. -/
def normalize (s : String) : String := pyStrip (pyLower s)

/-! ### difflib.SequenceMatcher

`match_name` calls `difflib.get_close_matches(word, possibilities, n=1, cutoff=0.6)`.
We embed `SequenceMatcher.ratio()` for short sequences (clinician names are far
below the 200-element autojunk threshold, so no element is ever junk): the
Ratcliff-Obershelp measure 2*M/T where M is the total size of the matching
blocks and T the sum of the two lengths. -/

/-- Length of the common prefix of two character lists: the size of the
matching block that starts at a given pair of positions. -/
def matchLen : List Char → List Char → Nat
  | a :: as, b :: bs => if a = b then matchLen as bs + 1 else 0
  | _, _ => 0

/-- `SequenceMatcher.find_longest_match` over whole sequences (no junk):
the longest matching block `(i, j, k)` with `a.drop i` and `b.drop j` agreeing
on `k` characters; among maximal blocks the one starting earliest in `a`, then
earliest in `b`, is kept (the scan below visits pairs in that order and only
replaces the current best on a strictly longer block).  `(0, 0, 0)` when the
sequences share no character. -/
def findLongestMatch (a b : List Char) : Nat × Nat × Nat :=
  (List.range a.length).foldl
    (fun best i =>
      (List.range b.length).foldl
        (fun best j =>
          let k := matchLen (a.drop i) (b.drop j)
          if best.2.2 < k then (i, j, k) else best)
        best)
    (0, 0, 0)

/-- Total size of all matching blocks (`get_matching_blocks`): take the longest
match, then recurse on the pieces to its left and to its right.  The fuel is
only a termination device: every recursive call strictly shrinks the first
sequence (the block has size at least 1), so `a.length + 1` units never run out. -/
def matchingTotal : Nat → List Char → List Char → Nat
  | 0, _, _ => 0
  | fuel + 1, a, b =>
    match findLongestMatch a b with
    | (_, _, 0) => 0
    | (i, j, k + 1) =>
      matchingTotal fuel (a.take i) (b.take j) + (k + 1) +
        matchingTotal fuel (a.drop (i + (k + 1))) (b.drop (j + (k + 1)))

/-- `SequenceMatcher(None, a, b).ratio()`: `2.0 * M / T`, and `1.0` when both
sequences are empty (`T = 0`). -/
def similarity (a b : List Char) : ℚ :=
  if a.length + b.length = 0 then 1
  else 2 * (matchingTotal (a.length + 1) a b : ℚ) / (a.length + b.length)

/-- One step of `heapq.nlargest(1, [(score, x), ...])`: keep the candidate whose
pair `(similarity, string)` is larger in Python's tuple order (ties on the score
are broken by the larger string). -/
def pickBetter (word : String) : Option String → String → Option String
  | none, x => some x
  | some b, x =>
    if similarity b.data word.data < similarity x.data word.data ∨
        (similarity b.data word.data = similarity x.data word.data ∧ b < x) then
      some x
    else some b

/-- main.py lines 40-42:

    def match_name(name, names_list):
        matches = difflib.get_close_matches(name.lower().strip(),
            [n.lower().strip() for n in names_list], n=1, cutoff=0.6)
        return matches[0] if matches else None

`get_close_matches` keeps the possibilities whose ratio is at least the cutoff
(its `real_quick_ratio`/`quick_ratio` pre-checks are upper bounds of `ratio`,
so the net condition is `ratio >= cutoff`) and returns the largest scorer.
Note the returned string is the normalized candidate, not the original one. -/
def match_name (name : String) (names_list : List String) : Option String :=
  let word := normalize name
  (((names_list.map normalize).filter
      (fun x => decide ((3 : ℚ)/5 ≤ similarity x.data word.data))).foldl
    (pickBetter word) none)

/-! ### Data model -/

/-- One row of the pay-rate table (`Sick_Pay_rates.xlsx`): a clinician name and
an hourly sick-pay rate. -/
structure RateRow where
  clinicianName : String
  sickPayRate : ℚ
deriving DecidableEq, Repr

/-- Round half to even, Python's `round` on an exact value. -/
def roundHalfEven (q : ℚ) : ℤ :=
  let f : ℤ := q.floor
  let frac : ℚ := q - (f : ℚ)
  if frac < 1/2 then f
  else if (1 : ℚ)/2 < frac then f + 1
  else if f % 2 = 0 then f else f + 1

/-- Python `round(x, 2)`. -/
def pyRound2 (q : ℚ) : ℚ := (roundHalfEven (q * 100) : ℚ) / 100

/-- main.py lines 44-49:

    def calculate_pay(clinician, rate_df, hours):
        row = rate_df[rate_df['Clinician Name'].str.lower().str.strip()
                      == clinician.lower().strip()]
        if not row.empty:
            hourly_rate = float(row.iloc[0]['Sick Pay Rate'])
            return round(hourly_rate * float(hours), 2)
        return 0
-/
def calculate_pay (clinician : String) (rate_df : List RateRow) (hours : ℚ) : ℚ :=
  match rate_df.filter (fun r => normalize r.clinicianName == normalize clinician) with
  | [] => 0
  | row :: _ => pyRound2 (row.sickPayRate * hours)

/-- The row `calculate_pay` reads (`row.iloc[0]` of the case-insensitive,
whitespace-trimmed name filter), when one exists. -/
def rateLookup (clinician : String) (rate_df : List RateRow) : Option RateRow :=
  (rate_df.filter (fun r => normalize r.clinicianName == normalize clinician)).head?

/-! ### Leave ledger -/

/-- One row of `Leave_log.xlsx` (the columns written by `log_leave`,
main.py lines 55-62).  The date carries no time component; we model it as an
opaque day token. -/
structure LeaveLogEntry where
  clinicianName : String
  date : Nat
  balanceBefore : ℚ
  balanceAfter : ℚ
  category : String
  pay : ℚ
deriving DecidableEq, Repr

/-- The entry `log_leave` builds (main.py lines 52-62), with

    balance_after = balance_before - hours if category.lower() != "unpaid leave"
                    else balance_before
-/
def newLeaveEntry (clinician category : String) (hours pay balance_before : ℚ)
    (now : Nat) : LeaveLogEntry :=
  { clinicianName := clinician
    date := now
    balanceBefore := balance_before
    balanceAfter :=
      if pyLower category ≠ "unpaid leave" then balance_before - hours
      else balance_before
    category := category
    pay := pay }

/-- main.py lines 64-72: read the whole persisted log when the file exists
(`none` models an absent `Leave_log.xlsx`), concatenate the new entry after the
old rows, and write the result back. -/
def log_leave (clinician category : String) (hours pay balance_before : ℚ)
    (now : Nat) (existing : Option (List LeaveLogEntry)) : List LeaveLogEntry :=
  match existing with
  | some old => old ++ [newLeaveEntry clinician category hours pay balance_before now]
  | none => [newLeaveEntry clinician category hours pay balance_before now]

/-- The admin Leave Log History view (main.py lines 218-222): the persisted log
when the file exists, otherwise an empty log (an informational message, not an
error). -/
def adminLeaveLogView (existing : Option (List LeaveLogEntry)) : List LeaveLogEntry :=
  match existing with
  | some log => log
  | none => []

/-! ### Eligibility and pay -/

/-- The outcome classes of an eligibility check, named as in the spec.
`invalidInput` stands for the `requested_hours > 0` gate (main.py line 118,
together with the non-negative number input on line 104): a non-positive
request is never evaluated, confirmed or logged. -/
inductive Reason where
  | invalidInput
  | unpaidLogged
  | payable
  | notPayable
  | insufficientBalance
deriving DecidableEq, Repr

/-- Result of the Check Eligibility and Pay branch: the `eligible` flag and the
pending pay stored in the session state, plus the outcome class. -/
structure EvalResult where
  eligible : Bool
  pay : ℚ
  reason : Reason
deriving DecidableEq, Repr

/-- main.py line 116: `payable_categories = ["sick", "vacation f/t", "bereavement"]`
("vacation f/t" is the code's spelling of vacation full-time). -/
def payable_categories : List String := ["sick", "vacation f/t", "bereavement"]

/-- The Check Eligibility and Pay branch (main.py lines 118-142) as a pure
function of its inputs: `category_clean = category.lower()`; unpaid leave is
logged with no balance check and no pay; otherwise the request must fit in the
available balance, and pay is computed only for the payable categories. -/
def checkEligibility (matched_name : String) (rate_df : List RateRow)
    (category : String) (requested_hours available_balance : ℚ) : EvalResult :=
  if requested_hours ≤ 0 then
    { eligible := false, pay := 0, reason := .invalidInput }
  else if pyLower category = "unpaid leave" then
    { eligible := true, pay := 0, reason := .unpaidLogged }
  else if requested_hours ≤ available_balance then
    if payable_categories.contains (pyLower category) then
      { eligible := true
        pay := calculate_pay matched_name rate_df requested_hours
        reason := .payable }
    else
      { eligible := true, pay := 0, reason := .notPayable }
  else
    { eligible := false, pay := 0, reason := .insufficientBalance }

/-- One full request cycle for a fresh session: the eligibility check followed,
when it succeeds, by Confirm and Log Leave (main.py lines 144-152), which calls
`log_leave` on the pending category/hours/pay with `balance_before` set to the
available balance.  When the check fails the session's `eligible` flag is
false, the confirm button is not offered, and the log is untouched. -/
def submitLeaveRequest (matched_name : String) (rate_df : List RateRow)
    (category : String) (requested_hours available_balance : ℚ) (now : Nat)
    (existing : Option (List LeaveLogEntry)) :
    EvalResult × Option (List LeaveLogEntry) :=
  let r := checkEligibility matched_name rate_df category requested_hours available_balance
  if r.eligible then
    (r, some (log_leave matched_name category requested_hours r.pay available_balance now existing))
  else
    (r, existing)

set_option maxRecDepth 100000

unseal Rat.mul Rat.add Rat.sub Rat.inv

/-! ### Helper lemmas -/

theorem pickBetter_isSome (word : String) (acc : Option String) (x : String) :
    (pickBetter word acc x).isSome = true := by
  cases acc with
  | none => rfl
  | some b => simp only [pickBetter]; split <;> rfl

theorem foldl_pickBetter_some (word : String) (l : List String) (b : String) :
    (l.foldl (pickBetter word) (some b)).isSome = true := by
  induction l generalizing b with
  | nil => rfl
  | cons x xs ih =>
    rw [List.foldl_cons]
    cases h : pickBetter word (some b) x with
    | none => have := pickBetter_isSome word (some b) x; rw [h] at this; cases this
    | some c => exact ih c

theorem foldl_pickBetter_isSome_iff (word : String) (l : List String) :
    (l.foldl (pickBetter word) none).isSome = true ↔ l ≠ [] := by
  cases l with
  | nil => simp [List.foldl_nil]
  | cons x xs =>
    constructor
    · intro _; exact List.cons_ne_nil x xs
    · intro _
      rw [List.foldl_cons]
      have hx : pickBetter word none x = some x := rfl
      rw [hx]
      exact foldl_pickBetter_some word xs x

theorem foldl_pickBetter_mem (word : String) (l : List String) (acc : Option String)
    (m : String) (h : l.foldl (pickBetter word) acc = some m) :
    m ∈ l ∨ acc = some m := by
  induction l generalizing acc with
  | nil => right; exact h
  | cons x xs ih =>
    rw [List.foldl_cons] at h
    rcases ih (pickBetter word acc x) h with hm | hacc
    · left; exact List.mem_cons_of_mem _ hm
    · cases acc with
      | none =>
        left
        have : x = m := Option.some.inj hacc
        rw [this]; exact List.mem_cons_self m xs
      | some b =>
        simp only [pickBetter] at hacc
        split at hacc
        · left
          have : x = m := Option.some.inj hacc
          rw [this]; exact List.mem_cons_self m xs
        · right; exact hacc

theorem calculate_pay_of_rateLookup (clin : String) (df : List RateRow) (hours : ℚ)
    (row : RateRow) (h : rateLookup clin df = some row) :
    calculate_pay clin df hours = pyRound2 (row.sickPayRate * hours) := by
  unfold rateLookup at h
  unfold calculate_pay
  cases hf : df.filter (fun r => normalize r.clinicianName == normalize clin) with
  | nil => rw [hf] at h; cases h
  | cons r rest =>
    rw [hf] at h
    have : r = row := Option.some.inj h
    rw [this]

/-! ### Claims -/

/-- Claim C1: for every confirmed leave transaction logged by `log_leave`, the
entry's balance-after equals balance-before minus the requested hours, except
when the category is "unpaid leave" (the code decides this after lowercasing
the category, see C10), in which case balance-after equals balance-before, for
all values of requested hours.  The last conjunct ties the entry to the row
`log_leave` appends. -/
theorem C1_log_leave_balance_rule (clin cat : String) (hours pay bal : ℚ)
    (now : Nat) (existing : Option (List LeaveLogEntry)) :
    (pyLower cat = "unpaid leave" →
      (newLeaveEntry clin cat hours pay bal now).balanceAfter
        = (newLeaveEntry clin cat hours pay bal now).balanceBefore) ∧
    (pyLower cat ≠ "unpaid leave" →
      (newLeaveEntry clin cat hours pay bal now).balanceAfter
        = (newLeaveEntry clin cat hours pay bal now).balanceBefore - hours) ∧
    (log_leave clin cat hours pay bal now existing).getLast?
      = some (newLeaveEntry clin cat hours pay bal now) := by
  refine ⟨fun h => by simp [newLeaveEntry, h], fun h => by simp [newLeaveEntry, h], ?_⟩
  cases existing with
  | none => rfl
  | some old => exact List.getLast?_concat old

theorem C1_log_leave_balance_rule_witness :
    (newLeaveEntry "jane doe" "unpaid leave" 5 0 20 0).balanceAfter
      = (newLeaveEntry "jane doe" "unpaid leave" 5 0 20 0).balanceBefore ∧
    (newLeaveEntry "jane doe" "Sick" 8 200 20 0).balanceAfter
      = (newLeaveEntry "jane doe" "Sick" 8 200 20 0).balanceBefore - 8 :=
  ⟨(C1_log_leave_balance_rule "jane doe" "unpaid leave" 5 0 20 0 none).1 (by decide),
   (C1_log_leave_balance_rule "jane doe" "Sick" 8 200 20 0 none).2.1 (by decide)⟩

/-- Claim C7: ledger append is order-preserving and total on a missing log:
appending to an existing log yields exactly the prior rows in their original
order followed by the new entry, an absent log file is treated as an empty log
on append, and the admin Leave Log History view of an absent file is the empty
log, never an error. -/
theorem C7_ledger_append_order (clin cat : String) (hours pay bal : ℚ) (now : Nat)
    (old : List LeaveLogEntry) :
    log_leave clin cat hours pay bal now (some old)
      = old ++ [newLeaveEntry clin cat hours pay bal now] ∧
    log_leave clin cat hours pay bal now none
      = [newLeaveEntry clin cat hours pay bal now] ∧
    adminLeaveLogView none = [] :=
  ⟨rfl, rfl, rfl⟩

/-- Claim C10: `log_leave` decides the unpaid-leave balance rule
case-insensitively: every category string that lowercases to "unpaid leave"
(for example "Unpaid Leave") keeps balance-after equal to balance-before, and
every other category, including unrecognized ones, draws the requested hours
down from the balance. -/
theorem C10_unpaid_decided_case_insensitively (clin cat : String)
    (hours pay bal : ℚ) (now : Nat) :
    (pyLower cat = "unpaid leave" →
      (newLeaveEntry clin cat hours pay bal now).balanceAfter = bal) ∧
    (pyLower cat ≠ "unpaid leave" →
      (newLeaveEntry clin cat hours pay bal now).balanceAfter = bal - hours) ∧
    (newLeaveEntry clin "Unpaid Leave" hours pay bal now).balanceAfter = bal := by
  refine ⟨fun h => by simp [newLeaveEntry, h], fun h => by simp [newLeaveEntry, h], ?_⟩
  have h : pyLower "Unpaid Leave" = "unpaid leave" := by decide
  simp [newLeaveEntry, h]

theorem C10_unpaid_decided_case_insensitively_witness :
    (newLeaveEntry "jane doe" "UNPAID LEAVE" 5 0 20 0).balanceAfter = 20 ∧
    (newLeaveEntry "jane doe" "Jury Duty" 8 0 20 0).balanceAfter = 20 - 8 :=
  ⟨(C10_unpaid_decided_case_insensitively "jane doe" "UNPAID LEAVE" 5 0 20 0).1
      (by decide),
   (C10_unpaid_decided_case_insensitively "jane doe" "Jury Duty" 8 0 20 0).2.1
      (by decide)⟩

/-- Claim C5: a request with non-positive hours is never evaluated as eligible:
the check comes back with the invalid-input outcome, the operation aborts with
pay 0, and no ledger entry is written. -/
theorem C5_nonpositive_hours_rejected (mn cat : String) (df : List RateRow)
    (hours bal : ℚ) (now : Nat) (existing : Option (List LeaveLogEntry))
    (h : hours ≤ 0) :
    checkEligibility mn df cat hours bal
      = { eligible := false, pay := 0, reason := .invalidInput } ∧
    (submitLeaveRequest mn df cat hours bal now existing).2 = existing := by
  have h1 : checkEligibility mn df cat hours bal
      = { eligible := false, pay := 0, reason := .invalidInput } := by
    simp [checkEligibility, h]
  exact ⟨h1, by simp [submitLeaveRequest, h1]⟩

theorem C5_nonpositive_hours_rejected_witness :
    checkEligibility "jane doe" [] "Sick" 0 5
      = { eligible := false, pay := 0, reason := .invalidInput } ∧
    (submitLeaveRequest "jane doe" [] "Sick" 0 5 0 none).2 = none :=
  C5_nonpositive_hours_rejected "jane doe" "Sick" [] 0 5 0 none (by decide)

/-- Claim C4: for every category other than unpaid leave, a positive request
exceeding the available balance is evaluated as not eligible with pay 0 and
the insufficient-balance outcome, and no ledger entry is produced.  (The
positivity hypothesis records that the request passed the `requested_hours > 0`
gate that guards the whole evaluation, main.py line 118.) -/
theorem C4_insufficient_balance_rejected (mn cat : String) (df : List RateRow)
    (hours bal : ℚ) (now : Nat) (existing : Option (List LeaveLogEntry))
    (h0 : 0 < hours) (hcat : pyLower cat ≠ "unpaid leave") (hbal : bal < hours) :
    checkEligibility mn df cat hours bal
      = { eligible := false, pay := 0, reason := .insufficientBalance } ∧
    (submitLeaveRequest mn df cat hours bal now existing).2 = existing := by
  have hn : ¬ hours ≤ 0 := not_le.mpr h0
  have hb : ¬ hours ≤ bal := not_le.mpr hbal
  have h1 : checkEligibility mn df cat hours bal
      = { eligible := false, pay := 0, reason := .insufficientBalance } := by
    simp [checkEligibility, hn, hcat, hb]
  exact ⟨h1, by simp [submitLeaveRequest, h1]⟩

theorem C4_insufficient_balance_rejected_witness :
    checkEligibility "jane doe" [⟨"Jane Doe", 25⟩] "Sick" 25 20
      = { eligible := false, pay := 0, reason := .insufficientBalance } ∧
    (submitLeaveRequest "jane doe" [⟨"Jane Doe", 25⟩] "Sick" 25 20 0 (some [])).2
      = some [] :=
  C4_insufficient_balance_rejected "jane doe" "Sick" [⟨"Jane Doe", 25⟩] 25 20 0
    (some []) (by decide) (by decide) (by decide)

/-- Claim C8: the hourly-rate lookup fails soft: when no row of the rate table
matches the clinician's name (under the code's case-insensitive, trimmed
comparison), `calculate_pay` returns 0 for any requested hours and raises no
error. -/
theorem C8_absent_rate_pays_zero (clin : String) (df : List RateRow) (hours : ℚ)
    (h : ∀ row ∈ df, normalize row.clinicianName ≠ normalize clin) :
    calculate_pay clin df hours = 0 := by
  have hf : df.filter (fun r => normalize r.clinicianName == normalize clin) = [] := by
    rw [List.filter_eq_nil_iff]
    intro r hr
    simpa using h r hr
  unfold calculate_pay
  rw [hf]

theorem C8_absent_rate_pays_zero_witness :
    calculate_pay "Jane Doe" [⟨"John Smith", 30⟩] 8 = 0 :=
  C8_absent_rate_pays_zero "Jane Doe" [⟨"John Smith", 30⟩] 8 (by decide)

/-- Claim C9: when several rate-table rows match the clinician's name
case-insensitively after trimming, `calculate_pay` uses the hourly rate of the
first such row in table order; the rows after it never influence the pay (the
right-hand side does not depend on `post`). -/
theorem C9_first_matching_rate_row_wins (clin : String) (pre post : List RateRow)
    (row : RateRow) (hours : ℚ)
    (hrow : normalize row.clinicianName = normalize clin)
    (hpre : ∀ r ∈ pre, normalize r.clinicianName ≠ normalize clin) :
    calculate_pay clin (pre ++ row :: post) hours
      = pyRound2 (row.sickPayRate * hours) := by
  have h1 : pre.filter (fun r => normalize r.clinicianName == normalize clin) = [] := by
    rw [List.filter_eq_nil_iff]
    intro r hr
    simpa using hpre r hr
  have h2 : (pre ++ row :: post).filter
      (fun r => normalize r.clinicianName == normalize clin)
      = row :: post.filter (fun r => normalize r.clinicianName == normalize clin) := by
    rw [List.filter_append, h1, List.nil_append,
      List.filter_cons_of_pos (by simpa using hrow)]
  unfold calculate_pay
  rw [h2]

theorem C9_first_matching_rate_row_wins_witness :
    calculate_pay "Jane Doe" [⟨"Bob Lee", 10⟩, ⟨" jane DOE ", 25⟩, ⟨"Jane Doe", 99⟩] 2
      = pyRound2 ((25 : ℚ) * 2) :=
  C9_first_matching_rate_row_wins "Jane Doe" [⟨"Bob Lee", 10⟩] [⟨"Jane Doe", 99⟩]
    ⟨" jane DOE ", 25⟩ 2 (by decide) (by decide)

/-- Claim C2: for every eligible request (positive hours within the available
balance, category not unpaid leave) the check succeeds, and: if the lowercased
category is in the fixed payable set ["sick", "vacation f/t", "bereavement"]
("vacation f/t" is the code's spelling of vacation full-time), the pending pay
is the clinician's hourly rate times the requested hours rounded to 2 decimal
places; for a category outside the payable set the pending pay is 0; in both
cases the request is still logged: confirming appends exactly one entry
carrying that pay. -/
theorem C2_payable_set_pay_rule (mn cat : String) (df : List RateRow)
    (hours bal : ℚ) (now : Nat) (log : List LeaveLogEntry)
    (h0 : 0 < hours) (hb : hours ≤ bal) (hcat : pyLower cat ≠ "unpaid leave") :
    (checkEligibility mn df cat hours bal).eligible = true ∧
    (payable_categories.contains (pyLower cat) = true →
      ∀ row, rateLookup mn df = some row →
        (checkEligibility mn df cat hours bal).pay
          = pyRound2 (row.sickPayRate * hours)) ∧
    (payable_categories.contains (pyLower cat) = false →
      (checkEligibility mn df cat hours bal).pay = 0) ∧
    (submitLeaveRequest mn df cat hours bal now (some log)).2
      = some (log ++
          [newLeaveEntry mn cat hours (checkEligibility mn df cat hours bal).pay bal now]) := by
  have hn : ¬ hours ≤ 0 := not_le.mpr h0
  by_cases hm : payable_categories.contains (pyLower cat)
  · have hm' : pyLower cat ∈ payable_categories := by simpa using hm
    have h1 : checkEligibility mn df cat hours bal
        = { eligible := true, pay := calculate_pay mn df hours, reason := .payable } := by
      simp [checkEligibility, hn, hcat, hb, hm']
    refine ⟨by rw [h1], fun _ row hrow => ?_, fun hfalse => ?_, ?_⟩
    · rw [h1]
      exact calculate_pay_of_rateLookup mn df hours row hrow
    · rw [hm] at hfalse; cases hfalse
    · simp [submitLeaveRequest, h1, log_leave]
  · have hm' : pyLower cat ∉ payable_categories := by simpa using hm
    have h1 : checkEligibility mn df cat hours bal
        = { eligible := true, pay := 0, reason := .notPayable } := by
      simp [checkEligibility, hn, hcat, hb, hm']
    refine ⟨by rw [h1], fun htrue _ _ => ?_, fun _ => by rw [h1], ?_⟩
    · exact absurd htrue (by simpa using hm)
    · simp [submitLeaveRequest, h1, log_leave]

theorem C2_payable_set_pay_rule_witness :
    (checkEligibility "jane doe" [⟨"Jane Doe", 25⟩] "Sick" 8 20).eligible = true ∧
    (checkEligibility "jane doe" [⟨"Jane Doe", 25⟩] "Sick" 8 20).pay
      = pyRound2 ((25 : ℚ) * 8) ∧
    (checkEligibility "jane doe" [⟨"Jane Doe", 25⟩] "Jury Duty" 8 20).pay = 0 :=
  ⟨(C2_payable_set_pay_rule "jane doe" "Sick" [⟨"Jane Doe", 25⟩] 8 20 0 []
      (by decide) (by decide) (by decide)).1,
   (C2_payable_set_pay_rule "jane doe" "Sick" [⟨"Jane Doe", 25⟩] 8 20 0 []
      (by decide) (by decide) (by decide)).2.1 (by decide) ⟨"Jane Doe", 25⟩ (by decide),
   (C2_payable_set_pay_rule "jane doe" "Jury Duty" [⟨"Jane Doe", 25⟩] 8 20 0 []
      (by decide) (by decide) (by decide)).2.2.1 (by decide)⟩

/-- Claim C3 is refuted: `match_name` returns `matches[0]` of
`difflib.get_close_matches`, which is drawn from the lowercased, trimmed copy
of the candidate list, so the name used downstream (here: the clinician name
recorded in the ledger by `log_leave`, main.py lines 146-152) is "jane doe",
not the canonical "Jane Doe" exactly as it appears in the balance table, even
when the user types it verbatim. -/
theorem C3_counterexample :
    match_name "Jane Doe" ["Jane Doe"] = some "jane doe" ∧
    "jane doe" ≠ "Jane Doe" ∧
    (log_leave "jane doe" "Sick" 8 200 20 0 none).map LeaveLogEntry.clinicianName
      = ["jane doe"] :=
  ⟨by decide, by decide, by decide⟩

/-- Claim C3, amended: for every raw input the name matcher resolves, the name
used downstream is the lowercased, whitespace-trimmed form of a canonical
clinician name from the balance table — a normalized table name, not the raw
user input as typed. -/
theorem C3_matched_name_from_table (input m : String) (L : List String)
    (h : match_name input L = some m) :
    ∃ c ∈ L, m = normalize c := by
  unfold match_name at h
  rcases foldl_pickBetter_mem _ _ _ _ h with hm | hacc
  · rcases List.mem_map.mp (List.mem_of_mem_filter hm) with ⟨c, hc, hcm⟩
    exact ⟨c, hc, hcm.symm⟩
  · cases hacc

theorem C3_matched_name_from_table_witness :
    ∃ c ∈ ["Jane Doe"], "jane doe" = normalize c :=
  C3_matched_name_from_table "Jane Doe" "jane doe" ["Jane Doe"] (by decide)

/-- Claim C6 is refuted in its threshold clause: `difflib.get_close_matches`
keeps a candidate whose similarity is at least the cutoff, not strictly above
it.  "abcx" and "abcdef" have ratio 2*3/(4+6) = 3/5 = 0.6 exactly, which does
not exceed the threshold, yet the matcher returns the candidate. -/
theorem C6_counterexample :
    (match_name "abcx" ["abcdef"]).isSome = true ∧
    similarity (normalize "abcdef").data (normalize "abcx").data = 3/5 ∧
    ¬ (3/5 < similarity (normalize "abcdef").data (normalize "abcx").data) :=
  ⟨by decide, by decide, by decide⟩

/-- Claim C6, amended: name matching is case- and whitespace-insensitive — two
raw inputs with the same lowercased, trimmed form yield the same canonical
result against every candidate set — and a match is returned exactly when some
candidate's similarity to the normalized input is at least (not strictly
above) the fixed threshold 0.6. -/
theorem C6_match_insensitive_threshold (s t : String) (L : List String)
    (h : normalize s = normalize t) :
    match_name s L = match_name t L ∧
    ((match_name s L).isSome = true ↔
      ∃ c ∈ L, (3 : ℚ)/5 ≤ similarity (normalize c).data (normalize s).data) := by
  constructor
  · unfold match_name
    rw [h]
  · unfold match_name
    rw [foldl_pickBetter_isSome_iff]
    constructor
    · intro hne
      rcases List.exists_mem_of_ne_nil _ hne with ⟨x, hx⟩
      have hx' := List.mem_filter.mp hx
      rcases List.mem_map.mp hx'.1 with ⟨c, hc, hcm⟩
      refine ⟨c, hc, ?_⟩
      rw [hcm]
      exact of_decide_eq_true hx'.2
    · rintro ⟨c, hc, hsim⟩
      refine List.ne_nil_of_mem (a := normalize c) (List.mem_filter.mpr ⟨?_, ?_⟩)
      · exact List.mem_map_of_mem _ hc
      · exact decide_eq_true hsim

theorem C6_match_insensitive_threshold_witness :
    match_name "  Jane Doe " ["Jane Doe"] = match_name "jane doe" ["Jane Doe"] ∧
    ((match_name "  Jane Doe " ["Jane Doe"]).isSome = true ↔
      ∃ c ∈ ["Jane Doe"],
        (3 : ℚ)/5 ≤ similarity (normalize c).data (normalize "  Jane Doe ").data) :=
  C6_match_insensitive_threshold "  Jane Doe " "jane doe" ["Jane Doe"] (by decide)

end LeaveSystem
